import Mathlib

/-!
# Verification of the mdbook-confluence tree synchronizer

A shallow embedding of the renderer core of `mdbook-confluence`
(`src/renderer.rs`, `src/client.rs`, `src/main.rs`) together with proofs
about its matching, escaping, capability-gating, error-handling and
ordering behaviour.

Modelling conventions:
* machine integers (`i64`, `i32`) are modelled as `Int`, version components
  (`u64` in the `semver` crate) as `Nat`;
* fallible remote calls return `Except Err _`; the network itself is an
  oracle (`Env`) of pure functions, one per RPC operation, so that one run
  of the synchronizer is a deterministic function of the oracle;
* every effectful function also returns the ordered list of `Event`s it
  performed (RPC calls and log lines); the concurrent sibling futures of
  `render_group` are created lazily and only executed by a single
  `join_all`, so their event streams are linearized in creation order;
* external library calls (markdown parsing / serialization, grapheme
  segmentation, path and MIME handling) are black boxes per the design:
  parsing is modelled by taking a chapter's content as an event list,
  serialization and segmentation as oracle fields.
-/

namespace MdbookConfluence

/-! ## Semantic versions and the capability gate (`supports_emoji`) -/

/-- A parsed semantic version `major.minor.patch`, as produced by the
`semver` crate for plain numeric versions (no pre-release, no build
metadata — the only shape this program ever constructs). -/
structure SemVer where
  major : Nat
  minor : Nat
  patch : Nat
deriving DecidableEq, Repr

/-- The `semver` crate's `<=` on plain numeric versions: lexicographic on
(major, minor, patch). -/
def semverLe (a b : SemVer) : Bool :=
  Nat.blt a.major b.major ||
    (a.major == b.major &&
      (Nat.blt a.minor b.minor ||
        (a.minor == b.minor && Nat.ble a.patch b.patch)))

/-- `InternalRenderer::supports_emoji` (renderer.rs:304-306):
`self.server_version >= Version::parse("7.3.0").unwrap()`. -/
def supports_emoji (serverVersion : SemVer) : Bool :=
  semverLe ⟨7, 3, 0⟩ serverVersion

/-- The error type of renderer.rs (`Error::{Confluence, MdBook, Error}`),
with each wrapped payload reduced to its message text. -/
inductive Err where
  | confluence (msg : String)
  | mdbook (msg : String)
  | error (msg : String)
deriving DecidableEq, Repr

/-- `Display for Error` (renderer.rs:410-418). -/
def errText : Err → String
  | .confluence e => "Failed to update Confluence: " ++ e
  | .mdbook e => "MdBook Error: " ++ e
  | .error e => e

/-- `AsyncSession::get_server_version` (client.rs:51-80): the RPC call
yields the `(majorVersion, minorVersion)` integers of `getServerInfo`
(modelled as the oracle argument `call`), then
`Version::parse(format!(\"{}.{}.0\", major, minor))` is attempted.
The `semver` parser accepts exactly the nonnegative values here (an `i32`
renders with a leading minus sign otherwise, which is not a version). -/
def get_server_version (call : Except Err (Int × Int)) : Except Err SemVer := do
  let (major, minor) ← call
  if major < 0 ∨ minor < 0 then
    .error (.error "Failed to parse Confluence Version")
  else
    .ok ⟨major.toNat, minor.toNat, 0⟩

/-- `ConfluenceRenderer::new` (renderer.rs:77-96) restricted to its two
fallible steps: `Session::login` then `get_server_version`; either failure
propagates out of session construction. -/
def rendererNew (loginRes : Except Err Unit) (versionCall : Except Err (Int × Int)) :
    Except Err SemVer := do
  loginRes
  get_server_version versionCall

/-! ## Remote data model (the `confluence` crate types used by the core) -/

/-- `confluence::PageSummary`: the lightweight child-listing entry. -/
structure PageSummary where
  id : Int
  space : String
  title : String
  url : String
deriving DecidableEq, Repr

/-- `confluence::Page`: a full remote page (fields the core reads). -/
structure Page where
  id : Int
  space : String
  title : String
  content : List Char
  version : Int
  url : String
deriving DecidableEq, Repr

/-- `confluence::UpdatePage`: the store payload; absent `id`/`version`
means create, present means update-with-optimistic-lock. -/
structure UpdatePage where
  id : Option Int
  space : String
  title : String
  content : List Char
  version : Option Int
  parentId : Option Int
deriving DecidableEq, Repr

/-- `ParentPage` (renderer.rs:438-442). -/
structure ParentPage where
  id : Int
  space : String
deriving DecidableEq, Repr

/-- `ParentPage::from<Page>` (renderer.rs:444-451). -/
def ParentPage.fromPage (p : Page) : ParentPage := ⟨p.id, p.space⟩

/-- `AttachmentRequest` (client.rs:156-177); the MIME type is kept as its
rendered text. -/
structure AttachmentRequest where
  fileName : String
  contentType : String
  title : Option String
  comment : Option String
deriving DecidableEq, Repr

/-- `AttachmentResponse` (client.rs:196-207); metadata fields not read by
the core are omitted, `url` is the one the renderer consumes. -/
structure AttachmentResponse where
  url : Option String
  id : Int
  pageId : Int
  fileSize : Int
deriving DecidableEq, Repr

/-- `ConfluenceConfig` (renderer.rs:28-37), the fields the core reads. -/
structure Config where
  titlePrefix : Option String
  rootPage : Int
deriving DecidableEq, Repr

/-! ## CDATA escaping and the character downgrade (`to_cdata`)

Strings are modelled as `List Char`; a grapheme-segmented string as a
`List (List Char)` (the segmentation produced by
`UnicodeSegmentation::graphemes`, an external library call, satisfies
`join segmentation = original string`). Rust's `str::len` of a grapheme
cluster is its UTF-8 byte count, `utf8Len` below. -/

/-- UTF-8 byte length of a string fragment (Rust `str::len`). -/
def utf8Len (g : List Char) : Nat := (g.map Char.utf8Size).sum

/-- The CDATA terminator `"]]>"`. -/
def cdataClose : List Char := [']', ']', '>']

/-- The CDATA opener `"<![CDATA["`. -/
def cdataOpen : List Char := ['<', '!', '[', 'C', 'D', 'A', 'T', 'A', '[']

/-- The replacement text `"]]]]><![CDATA[>"` used for each terminator
occurrence (renderer.rs:299). -/
def cdataSep : List Char :=
  [']', ']', ']', ']', '>', '<', '!', '[', 'C', 'D', 'A', 'T', 'A', '[', '>']

/-- The placeholder glyph `'⸮'` (renderer.rs:287). -/
def placeholder : Char := '⸮'

/-- Locate the leftmost occurrence of `pat` in `s`, returning the text
before it and the text after it (the scanning that Rust's
`str::split(pat)` performs to produce each piece). -/
def findSplit (pat : List Char) : List Char → Option (List Char × List Char)
  | [] => none
  | c :: rest =>
    if pat.isPrefixOf (c :: rest) then some ([], (c :: rest).drop pat.length)
    else (findSplit pat rest).map fun p => (c :: p.1, p.2)

theorem findSplit_eq {pat s b a : List Char} (h : findSplit pat s = some (b, a)) :
    b ++ pat ++ a = s := by
  induction s generalizing b a with
  | nil => simp [findSplit] at h
  | cons c rest ih =>
    simp only [findSplit] at h
    split at h
    case isTrue hp =>
      injection h with h'
      injection h' with hb ha
      obtain ⟨t, ht⟩ := List.isPrefixOf_iff_prefix.mp hp
      subst hb
      simp only [List.nil_append, ← ha, ← ht, List.drop_left]
    case isFalse hp =>
      rw [Option.map_eq_some'] at h
      obtain ⟨⟨b', a'⟩, hfs, hba⟩ := h
      injection hba with hb ha
      subst hb; subst ha
      simpa using congrArg (c :: ·) (ih hfs)

theorem findSplit_none {pat s : List Char} (hne : pat ≠ []) (h : findSplit pat s = none) :
    ¬ pat <:+: s := by
  induction s with
  | nil => exact fun hinf => hne (List.sublist_nil.mp hinf.sublist)
  | cons c rest ih =>
    simp only [findSplit] at h
    split at h
    case isTrue hp => exact absurd h (by simp)
    case isFalse hp =>
      rw [Option.map_eq_none'] at h
      rintro ⟨u, v, huv⟩
      cases u with
      | nil =>
        exact hp (List.isPrefixOf_iff_prefix.mpr ⟨v, by simpa using huv⟩)
      | cons d u' =>
        simp only [List.cons_append, List.cons.injEq] at huv
        exact ih h ⟨u', v, huv.2⟩

theorem findSplit_before_clean {pat s b a : List Char} (hne : pat ≠ [])
    (h : findSplit pat s = some (b, a)) : ¬ pat <:+: b := by
  induction s generalizing b a with
  | nil => simp [findSplit] at h
  | cons c rest ih =>
    simp only [findSplit] at h
    split at h
    case isTrue hp =>
      injection h with h'
      injection h' with hb ha
      subst hb
      exact fun hinf => hne (List.sublist_nil.mp hinf.sublist)
    case isFalse hp =>
      rw [Option.map_eq_some'] at h
      obtain ⟨⟨b', a'⟩, hfs, hba⟩ := h
      injection hba with hb ha
      subst hb; subst ha
      rintro ⟨u, v, huv⟩
      cases u with
      | nil =>
        have hrest := findSplit_eq hfs
        refine hp (List.isPrefixOf_iff_prefix.mpr ⟨v ++ pat ++ a', ?_⟩)
        simp only [List.nil_append] at huv
        calc pat ++ (v ++ pat ++ a') = (pat ++ v) ++ pat ++ a' := by simp
        _ = (c :: b') ++ pat ++ a' := by rw [huv]
        _ = c :: rest := by rw [← hrest]; simp
      | cons d u' =>
        simp only [List.cons_append, List.cons.injEq] at huv
        exact ih hfs ⟨u', v, huv.2⟩

/-- `str::split("]]>")` (renderer.rs:296-298): the ordered list of pieces
between non-overlapping leftmost occurrences of the terminator. -/
def splitCdata (s : List Char) : List (List Char) :=
  match h : findSplit cdataClose s with
  | none => [s]
  | some (b, a) =>
    have : a.length < s.length := by
      have h1 := findSplit_eq h
      have h2 : (b ++ cdataClose ++ a).length = s.length := by rw [h1]
      simp only [List.length_append, cdataClose, List.length_cons, List.length_nil] at h2
      omega
    b :: splitCdata a
termination_by s.length

theorem splitCdata_of_none {s : List Char} (h : findSplit cdataClose s = none) :
    splitCdata s = [s] := by
  unfold splitCdata
  split
  · rfl
  · next b a heq => rw [h] at heq; exact absurd heq (by simp)

theorem splitCdata_of_some {s b a : List Char} (h : findSplit cdataClose s = some (b, a)) :
    splitCdata s = b :: splitCdata a := by
  conv_lhs => rw [splitCdata.eq_def]
  split
  · next heq => rw [h] at heq; exact absurd heq (by simp)
  · next b' a' heq =>
    rw [h] at heq
    injection heq with heq'
    injection heq' with hb ha
    rw [hb, ha]

theorem splitCdata_ne_nil (s : List Char) : splitCdata s ≠ [] := by
  cases h : findSplit cdataClose s with
  | none => rw [splitCdata_of_none h]; simp
  | some p => rw [splitCdata_of_some (b := p.1) (a := p.2) (by simpa using h)]; simp

/-- Rust `Vec::<&str>::join(sep)`. -/
def joinSep (sep : List Char) : List (List Char) → List Char
  | [] => []
  | [p] => p
  | p :: q :: r => p ++ sep ++ joinSep sep (q :: r)

theorem joinSep_cons (sep p : List Char) {ps : List (List Char)} (h : ps ≠ []) :
    joinSep sep (p :: ps) = p ++ sep ++ joinSep sep ps := by
  cases ps with
  | nil => exact absurd rfl h
  | cons q r => rfl

/-- Modelled from the spec: "any literal `]]>` sequence inside the body
must be split and re-opened (`]]>` → `]]]]><![CDATA[>`)" — replace each
non-overlapping leftmost occurrence of the terminator by `cdataSep`.
This is the spec-side description of the escaping, to be compared with
the split/join mechanism the source uses. -/
def replaceEachTerminator (s : List Char) : List Char :=
  match h : findSplit cdataClose s with
  | none => s
  | some (b, a) =>
    have : a.length < s.length := by
      have h1 := findSplit_eq h
      have h2 : (b ++ cdataClose ++ a).length = s.length := by rw [h1]
      simp only [List.length_append, cdataClose, List.length_cons, List.length_nil] at h2
      omega
    b ++ cdataSep ++ replaceEachTerminator a
termination_by s.length

theorem replaceEachTerminator_of_none {s : List Char} (h : findSplit cdataClose s = none) :
    replaceEachTerminator s = s := by
  unfold replaceEachTerminator
  split
  · rfl
  · next b a heq => rw [h] at heq; exact absurd heq (by simp)

theorem replaceEachTerminator_of_some {s b a : List Char}
    (h : findSplit cdataClose s = some (b, a)) :
    replaceEachTerminator s = b ++ cdataSep ++ replaceEachTerminator a := by
  conv_lhs => rw [replaceEachTerminator.eq_def]
  split
  · next heq => rw [h] at heq; exact absurd heq (by simp)
  · next b' a' heq =>
    rw [h] at heq
    injection heq with heq'
    injection heq' with hb ha
    rw [hb, ha]

/-- The character downgrade (renderer.rs:281-291): over the grapheme
clusters of the body, a cluster of UTF-8 byte length at least 4 becomes
the single placeholder `'⸮'`, any other cluster passes through
(`flat_map` then `collect::<String>()`). -/
def downgrade (gs : List (List Char)) : List Char :=
  (gs.map fun g => if 4 ≤ utf8Len g then [placeholder] else g).flatten

/-- `InternalRenderer::to_cdata` (renderer.rs:278-302) applied to a body
whose grapheme segmentation is `gs` (so the body string itself is
`gs.flatten`): when the server does not support extended text the body is
first downgraded cluster-by-cluster, then every `"]]>"` is split/rejoined
with `cdataSep`, and the result is wrapped in `<![CDATA[` … `]]>`. -/
def to_cdata (supportsExtendedText : Bool) (gs : List (List Char)) : List Char :=
  let s := if supportsExtendedText then gs.flatten else downgrade gs
  cdataOpen ++ joinSep cdataSep (splitCdata s) ++ cdataClose

/-- The split/join mechanism of the source coincides with the spec's
"replace every `]]>` occurrence" description. -/
theorem joinSep_splitCdata_eq_replace (s : List Char) :
    joinSep cdataSep (splitCdata s) = replaceEachTerminator s := by
  induction s using splitCdata.induct with
  | case1 x h =>
    rw [splitCdata_of_none h, replaceEachTerminator_of_none h]
    rfl
  | case2 x b a h hlt ih =>
    rw [splitCdata_of_some h, replaceEachTerminator_of_some h,
      joinSep_cons _ _ (splitCdata_ne_nil a), ih]

/-- Rejoining the pieces with the terminator itself recovers the body:
the escaping loses no content. -/
theorem joinSep_splitCdata_close (s : List Char) :
    joinSep cdataClose (splitCdata s) = s := by
  induction s using splitCdata.induct with
  | case1 x h => rw [splitCdata_of_none h]; rfl
  | case2 x b a h hlt ih =>
    rw [splitCdata_of_some h, joinSep_cons _ _ (splitCdata_ne_nil a), ih]
    exact findSplit_eq h

/-- No piece produced by the split contains the terminator. -/
theorem splitCdata_clean (s : List Char) :
    ∀ p ∈ splitCdata s, ¬ cdataClose <:+: p := by
  induction s using splitCdata.induct with
  | case1 x h =>
    rw [splitCdata_of_none h]
    intro p hp
    rw [List.mem_singleton] at hp
    subst hp
    exact findSplit_none (by simp [cdataClose]) h
  | case2 x b a h hlt ih =>
    rw [splitCdata_of_some h]
    intro p hp
    rcases List.mem_cons.mp hp with hpb | hpa
    · subst hpb
      exact findSplit_before_clean (by simp [cdataClose]) h
    · exact ih p hpa

/-- A sequence of well-formed CDATA sections, one per body:
`<![CDATA[` body `]]>` concatenated. -/
def cdataSections (bodies : List (List Char)) : List Char :=
  (bodies.map fun b => cdataOpen ++ b ++ cdataClose).flatten

/-- The bodies of the CDATA sections that the escaped output decomposes
into: piece `i` keeps its trailing `"]]"` (re-encoded terminator head) and
passes the `'>'` on to the next section's body. -/
def bodiesOf : List (List Char) → List (List Char)
  | [] => []
  | [p] => [p]
  | p :: q :: r => (p ++ [']', ']']) :: bodiesOf (('>' :: q) :: r)
termination_by l => l.length

theorem bodiesOf_ne_nil {ps : List (List Char)} (h : ps ≠ []) : bodiesOf ps ≠ [] := by
  match ps with
  | [] => exact absurd rfl h
  | [p] => simp [bodiesOf]
  | p :: q :: r => simp [bodiesOf]

theorem joinSep_cons_head (sep : List Char) (c : Char) (q : List Char)
    (r : List (List Char)) :
    joinSep sep ((c :: q) :: r) = c :: joinSep sep (q :: r) := by
  cases r with
  | nil => rfl
  | cons x xs => rfl

theorem cdataSections_cons (x : List Char) (l : List (List Char)) :
    cdataSections (x :: l) = (cdataOpen ++ x ++ cdataClose) ++ cdataSections l := by
  simp [cdataSections]

/-- The escaped and wrapped output decomposes exactly into the CDATA
sections whose bodies are `bodiesOf pieces`. -/
theorem wrap_eq_cdataSections (ps : List (List Char)) (h : ps ≠ []) :
    cdataOpen ++ joinSep cdataSep ps ++ cdataClose = cdataSections (bodiesOf ps) := by
  match ps with
  | [] => exact absurd rfl h
  | [p] => simp [joinSep, bodiesOf, cdataSections]
  | p :: q :: r =>
    have ih := wrap_eq_cdataSections (('>' :: q) :: r) (by simp)
    rw [bodiesOf]
    have hsep : cdataSep = [']', ']'] ++ cdataClose ++ cdataOpen ++ ['>'] := rfl
    calc cdataOpen ++ joinSep cdataSep (p :: q :: r) ++ cdataClose
        = cdataOpen ++ (p ++ cdataSep ++ joinSep cdataSep (q :: r)) ++ cdataClose := rfl
      _ = (cdataOpen ++ (p ++ [']', ']']) ++ cdataClose) ++
          (cdataOpen ++ ('>' :: joinSep cdataSep (q :: r)) ++ cdataClose) := by
          rw [hsep]; simp
      _ = (cdataOpen ++ (p ++ [']', ']']) ++ cdataClose) ++
          (cdataOpen ++ joinSep cdataSep (('>' :: q) :: r) ++ cdataClose) := by
          rw [joinSep_cons_head]
      _ = cdataSections ((p ++ [']', ']']) :: bodiesOf (('>' :: q) :: r)) := by
          rw [cdataSections_cons, ← ih]
termination_by ps.length

/-- Appending `"]]"` to a terminator-free piece keeps it terminator-free:
the appended characters contain no `'>'`, so a terminator would have to
lie inside the original piece. -/
theorem not_infix_append_brackets {p : List Char} (hp : ¬ cdataClose <:+: p) :
    ¬ cdataClose <:+: (p ++ [']', ']']) := by
  intro hinf
  apply hp
  rw [← List.reverse_infix] at hinf ⊢
  simp only [List.reverse_append] at hinf
  have hrev : cdataClose.reverse = '>' :: [']', ']'] := rfl
  have step : ∀ (q : List Char), cdataClose.reverse <:+: (']' :: q) →
      cdataClose.reverse <:+: q := by
    intro q hq
    obtain ⟨u, v, huv⟩ := hq
    cases u with
    | nil =>
      rw [hrev] at huv
      simp only [List.nil_append, List.cons_append, List.cons.injEq] at huv
      exact absurd huv.1 (by decide)
    | cons d u' =>
      simp only [List.cons_append, List.cons.injEq] at huv
      exact ⟨u', v, huv.2⟩
  exact step _ (step _ (by simpa using hinf))

/-- Prepending `'>'` to a terminator-free piece keeps it terminator-free:
the terminator starts with `']'`. -/
theorem not_infix_cons_gt {p : List Char} (hp : ¬ cdataClose <:+: p) :
    ¬ cdataClose <:+: ('>' :: p) := by
  rintro ⟨u, v, huv⟩
  cases u with
  | nil =>
    simp only [List.nil_append, cdataClose, List.cons_append, List.cons.injEq] at huv
    exact absurd huv.1 (by decide)
  | cons d u' =>
    simp only [List.cons_append, List.cons.injEq] at huv
    exact hp ⟨u', v, huv.2⟩

/-- Terminator-free pieces yield terminator-free section bodies. -/
theorem bodiesOf_clean {ps : List (List Char)} (hps : ∀ p ∈ ps, ¬ cdataClose <:+: p) :
    ∀ b ∈ bodiesOf ps, ¬ cdataClose <:+: b := by
  match ps with
  | [] => simp [bodiesOf]
  | [p] =>
    intro b hb
    simp only [bodiesOf, List.mem_singleton] at hb
    subst hb
    exact hps _ (by simp)
  | p :: q :: r =>
    intro b hb
    rw [bodiesOf] at hb
    rcases List.mem_cons.mp hb with hbp | hbrest
    · subst hbp
      exact not_infix_append_brackets (hps p (by simp))
    · refine bodiesOf_clean ?_ b hbrest
      intro x hx
      rcases List.mem_cons.mp hx with hxq | hxr
      · subst hxq
        exact not_infix_cons_gt (hps q (by simp))
      · exact hps x (by simp [hxr])
termination_by ps.length

/-! ## The local book tree and the markdown event stream

`mdbook::BookItem` is `Chapter`, `Separator` or `PartTitle`; a chapter
carries a name, its content and an ordered list of sub-items. The
markdown parser (`new_cmark_parser`) and serializer (`cmark`) are external
black boxes, so a chapter's content is modelled directly as the event
stream the parser yields for it. -/

/-- `pulldown_cmark::Tag`: the core inspects only `Tag::Image(link_type,
url, title)`; every other tag is opaque payload. -/
inductive CmTag where
  | image (linkType : Nat) (url : String) (title : String)
  | other (payload : String)
deriving DecidableEq, Repr

/-- `pulldown_cmark::Event`: `Start`/`End` tag pairs plus opaque events
(`stop` models `Event::End`, as `end` is reserved). -/
inductive CmEvent where
  | start (tag : CmTag)
  | stop (tag : CmTag)
  | other (payload : String)
deriving DecidableEq, Repr

mutual
/-- `mdbook::BookItem`. -/
inductive BookItem where
  | chapter (c : Chapter)
  | separator
  | partTitle (t : String)

/-- `mdbook::book::Chapter`: name, parsed content, source path (as path
components), ordered sub-items. -/
inductive Chapter where
  | mk (name : String) (events : List CmEvent) (path : List String)
      (subItems : List BookItem)
end

def Chapter.name : Chapter → String
  | .mk n _ _ _ => n

def Chapter.events : Chapter → List CmEvent
  | .mk _ e _ _ => e

def Chapter.path : Chapter → List String
  | .mk _ _ p _ => p

def Chapter.subItems : Chapter → List BookItem
  | .mk _ _ _ s => s

/-- `ConfluenceConfig::chapter_title` (renderer.rs:40-46): the optional
configured prefix prepended to the chapter name. -/
def chapter_title (cfg : Config) (c : Chapter) : String :=
  cfg.titlePrefix.getD "" ++ c.name

/-! ## The remote session as an oracle, and the event trace -/

/-- One observable action of a run: an RPC call or a log line. -/
inductive Event where
  | getChildrenCall (parentId : Int)
  | getPageCall (pageId : Int)
  | storePageCall (page : UpdatePage)
  | removePageCall (pageId : Int)
  | addFileCall (pageId : Int) (req : AttachmentRequest) (path : List String)
  | logInfo (msg : String)
  | logError (msg : String)
deriving DecidableEq, Repr

/-- The remote session and the external library calls, as a pure oracle:
each operation is a function of its arguments, so a run is deterministic
given the oracle. Paths are lists of components (`PathBuf`). -/
structure Env where
  /-- `AsyncSession::get_children` (client.rs:86-88). -/
  getChildren : Int → Except Err (List PageSummary)
  /-- `AsyncSession::get_page_by_id` (client.rs:82-84). -/
  getPageById : Int → Except Err Page
  /-- `AsyncSession::store_page` (client.rs:90-92). -/
  storePage : UpdatePage → Except Err Page
  /-- `AsyncSession::remove_page` (client.rs:94-105). -/
  removePage : Int → Except Err Unit
  /-- The `Result` that `EnhancedSession::add_file` (called at
  renderer.rs:234-243) produces on runs where the read inside
  `add_attachment` does not panic. This field is the upload abstraction
  the tree-synchronization pipeline below is stated over; the faithful
  model of the whole upload — including the read-failure panic of
  client.rs:118, which no caller catches — is `add_file` further down,
  related to this field by `upload_imageF_agrees_when_no_panic` and
  evaluated on the panic path by `upload_image_panics_on_read_failure`. -/
  addFile : Int → AttachmentRequest → List String → Except Err AttachmentResponse
  /-- Modelled from the spec: the `File::open` that
  `EnhancedSession::add_file` (its own body is not among the provided
  sources) performs before handing the opened reader to `add_attachment`;
  a missing file fails here, catchably, per the spec's "a broken or
  missing local image degrades to leaving the original link". -/
  openFile : List String → Except Err Unit
  /-- The bytes the opened reader yields to `io::copy` inside
  `add_attachment` (client.rs:116-118), or the I/O error that makes that
  read fail (e.g. the path names a directory, which opens but does not
  read). -/
  readFile : List String → Except String String
  /-- Black-box `base64::write::EncoderWriter` (client.rs:117). -/
  base64Encode : String → String
  /-- The `addAttachment` RPC `Session::call` of `add_attachment`
  (client.rs:124-139). -/
  addAttachmentRpc : Int → AttachmentRequest → String → Except Err AttachmentResponse
  /-- Black-box `pulldown_cmark_to_cmark::fmt::cmark` (renderer.rs:202):
  serialize an event stream back to markdown text, or fail with a
  formatting error message. -/
  serialize : List CmEvent → Except String (List Char)
  /-- Black-box `UnicodeSegmentation::graphemes` (renderer.rs:282). -/
  graphemes : List Char → List (List Char)
  /-- Black-box `MimeGuess::from_path(..).first_or_octet_stream()`
  (renderer.rs:238), rendered as text. -/
  mimeGuess : List String → String

/-- `InternalRenderer` (renderer.rs:70-74) minus the session handle,
which is passed separately as the oracle. -/
structure InternalRenderer where
  serverVersion : SemVer
  config : Config

/-! ## Image upload and content transformation -/

/-- A character of the regex class `[a-z0-9+.-]`. -/
def isSchemeChar (c : Char) : Bool :=
  ('a' ≤ c && c ≤ 'z') || ('0' ≤ c && c ≤ '9') || c == '+' || c == '.' || c == '-'

/-- Scan for the `[a-z0-9+.-]*:` part of the scheme pattern: because
`':'` is not in the repeated class, the regex matches exactly when the
maximal class run is followed by `':'`. -/
def schemeTail : List Char → Bool
  | [] => false
  | c :: rest => if c == ':' then true else if isSchemeChar c then schemeTail rest else false

/-- `SCHEME_LINK.is_match(url)` for `^[a-z][a-z0-9+.-]*:`
(renderer.rs:222-228). -/
def isSchemeLink (url : String) : Bool :=
  match url.toList with
  | [] => false
  | c :: rest => ('a' ≤ c && c ≤ 'z') && schemeTail rest

/-- `PathBuf::file_name` with the `unwrap_or("")` of renderer.rs:237. -/
def pathFileName (p : List String) : String := p.getLast?.getD ""

/-- The `AttachmentRequest::new(file_name, mime, title, None)` built at
renderer.rs:236-241. -/
def uploadRequest (env : Env) (title url : String) (rootPath : List String) :
    AttachmentRequest :=
  { fileName := pathFileName (rootPath ++ [url])
    contentType := env.mimeGuess (rootPath ++ [url])
    title := some title
    comment := none }

/-- `InternalRenderer::upload_image` (renderer.rs:215-266) over the
no-panic upload abstraction `Env.addFile`: scheme links are left alone
with no attempt; a failure *reported by the session* is absorbed into a
log line and `none`. The faithful version, on which the read-failure
panic of client.rs:118 unwinds instead of being absorbed, is
`upload_imageF` below. -/
def upload_image (env : Env) (title url : String) (rootPath : List String)
    (pageId : Int) : Option String × List Event :=
  if isSchemeLink url then (none, [])
  else
    let path := rootPath ++ [url]
    let req := uploadRequest env title url rootPath
    let pre := [Event.logInfo ("Attempting to upload file: " ++ url),
      Event.addFileCall pageId req path]
    match env.addFile pageId req path with
    | .error e =>
        (none, pre ++ [Event.logError ("Attempted to upload file but hit an error: " ++
          errText e)])
    | .ok a =>
      match a.url with
      | some fileUrl => (some fileUrl, pre ++ [Event.logInfo ("Uploaded file at: " ++ fileUrl)])
      | none =>
          (none, pre ++ [Event.logError "Uploaded an attachment but could not find a url for it"])

/-! ## The faithful upload model, panic path included

`add_attachment` is src code (client.rs:107-142) and its
`io::copy(&mut data_reader, &mut writer).expect(..)` makes a failed read
of the local file PANIC rather than return an error; nothing anywhere in
the program catches an unwind, so such a panic aborts the whole render.
The model below keeps that path distinct from catchable errors. -/

/-- The outcome of running code that may panic: a normal value or an
uncaught panic unwinding past every caller. -/
inductive PanicOr (α : Type) where
  | ok (a : α)
  | panicked (msg : String)
deriving DecidableEq, Repr

/-- The exact `.expect` message of client.rs:118 (its apostrophe written
as an escape). -/
def panicMessage : String := "Couldn\x27t read file"

/-- `AsyncSession::add_attachment` (client.rs:107-142): `io::copy` the
reader into a base64 encoder — a failed read PANICS with `panicMessage`
via `.expect` (client.rs:118) instead of returning an error — then issue
the `addAttachment` RPC. -/
def add_attachment (env : Env) (pageId : Int) (attachment : AttachmentRequest)
    (path : List String) : PanicOr (Except Err AttachmentResponse) :=
  match env.readFile path with
  | .error _ => .panicked panicMessage
  | .ok data => .ok (env.addAttachmentRpc pageId attachment (env.base64Encode data))

/-- Modelled from the spec: `EnhancedSession::add_file` (called at
renderer.rs:234-243; its own body is not among the provided sources)
opens the local file and delegates to `add_attachment` with the opened
reader — per the spec a missing file fails at the open, catchably. The
delegated read and RPC are the src code `add_attachment` above. -/
def add_file (env : Env) (pageId : Int) (attachment : AttachmentRequest)
    (path : List String) : PanicOr (Except Err AttachmentResponse) :=
  match env.openFile path with
  | .error e => .ok (.error e)
  | .ok _ => add_attachment env pageId attachment path

/-- `InternalRenderer::upload_image` (renderer.rs:215-266) over the
faithful upload `add_file`: identical to `upload_image` except that the
read-failure panic unwinds through it uncaught — there is no
`catch_unwind` anywhere — carrying the events performed so far. -/
def upload_imageF (env : Env) (title url : String) (rootPath : List String)
    (pageId : Int) : PanicOr (Option String) × List Event :=
  if isSchemeLink url then (.ok none, [])
  else
    let path := rootPath ++ [url]
    let req := uploadRequest env title url rootPath
    let pre := [Event.logInfo ("Attempting to upload file: " ++ url),
      Event.addFileCall pageId req path]
    match add_file env pageId req path with
    | .panicked msg => (.panicked msg, pre)
    | .ok (.error e) =>
        (.ok none, pre ++ [Event.logError ("Attempted to upload file but hit an error: " ++
          errText e)])
    | .ok (.ok a) =>
      match a.url with
      | some fileUrl =>
          (.ok (some fileUrl), pre ++ [Event.logInfo ("Uploaded file at: " ++ fileUrl)])
      | none =>
          (.ok none,
            pre ++ [Event.logError "Uploaded an attachment but could not find a url for it"])

/-- The image-rewriting loop of `create_page_content`
(renderer.rs:160-199): a state machine over the event stream, carrying
the `last_image` replacement tag between an image start and its end. -/
def imageLoop (env : Env) (chapterPath : List String) (pageId : Int) :
    List CmEvent → Option CmTag → List CmEvent × List Event
  | [], _ => ([], [])
  | e :: rest, lastImage =>
    match e, lastImage with
    | .start (.image lt url title), none =>
      let up := upload_image env title url chapterPath pageId
      match up.1 with
      | some newUrl =>
        let tag := CmTag.image lt newUrl title
        let next := imageLoop env chapterPath pageId rest (some tag)
        (CmEvent.start tag :: next.1, up.2 ++ next.2)
      | none =>
        let next := imageLoop env chapterPath pageId rest none
        (CmEvent.start (CmTag.image lt url title) :: next.1, up.2 ++ next.2)
    | .stop (.image _ _ _), some last =>
      let next := imageLoop env chapterPath pageId rest none
      (CmEvent.stop last :: next.1, next.2)
    | _, _ =>
      let next := imageLoop env chapterPath pageId rest lastImage
      (e :: next.1, next.2)

/-- The structured-macro wrapper text before the CDATA block
(renderer.rs:270-271). -/
def macroHead : List Char :=
  ("<ac:structured-macro ac:name=\"markdown\" ac:schema-version=\"1\" " ++
    "ac:macro-id=\"249327eb-2c99-42ca-a7a7-487e1c0c7e04\">\n           " ++
    "<ac:plain-text-body>").toList

/-- The structured-macro wrapper text after the CDATA block
(renderer.rs:271-272). -/
def macroTail : List Char :=
  ("</ac:plain-text-body>\n        </ac:structured-macro>").toList

/-- `InternalRenderer::to_page_content` (renderer.rs:268-275). -/
def to_page_content (env : Env) (serverVersion : SemVer) (markdown : List Char) :
    List Char :=
  macroHead ++ to_cdata (supports_emoji serverVersion) (env.graphemes markdown) ++ macroTail

/-- `InternalRenderer::create_page_content` (renderer.rs:153-213):
rewrite image links, re-serialize, and build the update payload carrying
the stub page's id and version. -/
def create_page_content (env : Env) (ir : InternalRenderer) (chapter : Chapter)
    (existingPage : Page) (parent : ParentPage) (rootPath : List String) :
    Except Err UpdatePage × List Event :=
  let chapterPath := rootPath ++ chapter.path.dropLast
  let loop := imageLoop env chapterPath existingPage.id chapter.events none
  match env.serialize loop.1 with
  | .error msg => (.error (.error ("Markdown serialization failed: " ++ msg)), loop.2)
  | .ok buf =>
    (.ok { id := some existingPage.id
           space := parent.space
           title := chapter_title ir.config chapter
           content := to_page_content env ir.serverVersion buf
           version := some existingPage.version
           parentId := some parent.id }, loop.2)

/-- `InternalRenderer::get_existing_page` (renderer.rs:130-151): create a
stub with empty content when no id was matched, fetch the full page
otherwise. -/
def get_existing_page (env : Env) (ir : InternalRenderer) (chapter : Chapter)
    (existingPageId : Option Int) (parent : ParentPage) : Except Err Page × List Event :=
  match existingPageId with
  | none =>
    let newPage : UpdatePage :=
      { id := none
        space := parent.space
        title := chapter_title ir.config chapter
        content := []
        version := none
        parentId := some parent.id }
    (env.storePage newPage, [Event.storePageCall newPage])
  | some pid => (env.getPageById pid, [Event.getPageCall pid])

/-! ## Matching, deletion, and the recursive synchronization -/

/-- The reverse-index matching scan of `render_group`
(renderer.rs:324-331): `for i in (0..children.len()).rev()` — deeper
list positions are higher indices, so the tail is searched before the
head; the first (i.e. highest-index) title match is removed and its id
returned. -/
def matchTitle (title : String) : List PageSummary → Option Int × List PageSummary
  | [] => (none, [])
  | c :: rest =>
    match matchTitle title rest with
    | (some pid, rest') => (some pid, c :: rest')
    | (none, _) =>
      if c.title == title then (some c.id, rest) else (none, c :: rest)

/-- The per-sibling result logging of `render_group`
(renderer.rs:343-348): a success is logged informationally, a failure as
an error. -/
def resultLog : Except Err String → Event
  | .ok s => Event.logInfo s
  | .error e => Event.logError (errText e)

/-- The orphan-deletion loop of `render_group` (renderer.rs:350-362):
one `removePage` per remaining child, each failure only logged. -/
def deleteOrphans (env : Env) : List PageSummary → List Event
  | [] => []
  | child :: rest =>
    let log := match env.removePage child.id with
      | .ok _ => Event.logInfo ("Deleted page: " ++ child.title ++ " " ++ child.url)
      | .error e => Event.logError (errText e)
    Event.removePageCall child.id :: log :: deleteOrphans env rest

/-- The sub-items of a chapter are structurally smaller than the chapter:
the measure justifying the mutual recursion below. -/
theorem Chapter.sizeOf_subItems_lt (c : Chapter) : sizeOf c.subItems < sizeOf c := by
  cases c with
  | mk n e p s => simp [Chapter.subItems]

mutual
/-- `render_page` (renderer.rs:368-400): stub, transform, store, then
recurse into the sub-items under the freshly stored page; each step's
failure aborts the rest of this page's pipeline. -/
def render_page (env : Env) (ir : InternalRenderer) (chapter : Chapter)
    (parent : ParentPage) (existingPageId : Option Int) (rootPath : List String) :
    Except Err String × List Event :=
  match get_existing_page env ir chapter existingPageId parent with
  | (.error e, evs1) => (.error e, evs1)
  | (.ok existingPage, evs1) =>
    match create_page_content env ir chapter existingPage parent rootPath with
    | (.error e, evs2) => (.error e, evs1 ++ evs2)
    | (.ok payload, evs2) =>
      match env.storePage payload with
      | .error e => (.error e, evs1 ++ evs2 ++ [Event.storePageCall payload])
      | .ok newPage =>
        let success := (if existingPageId.isSome then "Updated " else "Created ") ++
          newPage.title ++ " " ++ newPage.url
        let recur := render_group env ir chapter.subItems (ParentPage.fromPage newPage)
          rootPath
        match recur.1 with
        | .error e =>
            (.error e, evs1 ++ evs2 ++ [Event.storePageCall payload] ++ recur.2)
        | .ok _ =>
            (.ok success, evs1 ++ evs2 ++ [Event.storePageCall payload] ++ recur.2)
termination_by (sizeOf chapter, 0)
decreasing_by
  have h := Chapter.sizeOf_subItems_lt chapter
  exact Prod.Lex.left _ _ h

/-- `render_group` (renderer.rs:310-366): list the remote children once;
match and render every chapter sibling; log each sibling's outcome;
delete whatever children remain unmatched. Only the initial listing can
fail the call. -/
def render_group (env : Env) (ir : InternalRenderer) (items : List BookItem)
    (parentPage : ParentPage) (rootPath : List String) :
    Except Err Unit × List Event :=
  match env.getChildren parentPage.id with
  | .error e => (.error e, [Event.getChildrenCall parentPage.id])
  | .ok children =>
    let sib := renderSiblings env ir items children parentPage rootPath
    (.ok (), Event.getChildrenCall parentPage.id ::
      (sib.2.1 ++ sib.1.map resultLog ++ deleteOrphans env sib.2.2))
termination_by (sizeOf items, 2)
decreasing_by
  exact Prod.Lex.right _ (by omega)

/-- The sibling pass of `render_group` (renderer.rs:322-348): the
matching loop runs once per chapter item against the still-unconsumed
children, each chapter's future is created with its matched id, and
`join_all` executes the futures in creation order (they are lazy until
awaited), which linearizes the event streams exactly as here. Returns
the per-chapter results in order, the concatenated events, and the
unconsumed children. -/
def renderSiblings (env : Env) (ir : InternalRenderer) (items : List BookItem)
    (children : List PageSummary) (parentPage : ParentPage) (rootPath : List String) :
    List (Except Err String) × List Event × List PageSummary :=
  match items with
  | [] => ([], [], children)
  | .chapter c :: rest =>
    let m := matchTitle (chapter_title ir.config c) children
    let page := render_page env ir c parentPage m.1 rootPath
    let sib := renderSiblings env ir rest m.2 parentPage rootPath
    (page.1 :: sib.1, page.2 ++ sib.2.1, sib.2.2)
  | .separator :: rest => renderSiblings env ir rest children parentPage rootPath
  | .partTitle _ :: rest => renderSiblings env ir rest children parentPage rootPath
termination_by (sizeOf items, 1)
decreasing_by
  · exact Prod.Lex.left _ _ (by simp; omega)
  · exact Prod.Lex.left _ _ (by simp)
  · exact Prod.Lex.left _ _ (by simp)
  · exact Prod.Lex.left _ _ (by simp)
end

/-! ## Observables used by the statements below -/

/-- The ids of the `removePage` calls occurring in a trace, in order. -/
def removeCalls : List Event → List Int
  | [] => []
  | .removePageCall i :: rest => i :: removeCalls rest
  | _ :: rest => removeCalls rest

/-- Whether an event is a child-listing RPC call — the first action of
any `render_group` level, hence the marker for "a subtree synchronization
has started". -/
def isGetChildren : Event → Bool
  | .getChildrenCall _ => true
  | _ => false

/-- The chapters among a list of book items, in order
(`if let BookItem::Chapter(chapter) = item`, renderer.rs:323). -/
def chapterItems : List BookItem → List Chapter
  | [] => []
  | .chapter c :: rest => c :: chapterItems rest
  | .separator :: rest => chapterItems rest
  | .partTitle _ :: rest => chapterItems rest

/-- Whether a book item is a chapter. -/
def isChapterItem : BookItem → Bool
  | .chapter _ => true
  | .separator => false
  | .partTitle _ => false

/-! ## Concrete fixtures used by the witnesses -/

/-- A remote oracle where listing succeeds with no children, stores and
deletes succeed, local files open and read fine, and the attachment RPC
fails with an IO error (so `addFile` is the coherent no-panic value
`add_file` produces on it). -/
def envW : Env where
  getChildren := fun _ => .ok []
  getPageById := fun pid =>
    .ok { id := pid, space := "S", title := "T", content := [], version := 1, url := "u" }
  storePage := fun up =>
    .ok { id := up.id.getD 100, space := up.space, title := up.title,
          content := up.content, version := up.version.getD 0 + 1, url := "u" }
  removePage := fun _ => .ok ()
  addFile := fun _ _ _ => .error (.confluence "io")
  openFile := fun _ => .ok ()
  readFile := fun _ => .ok "DATA"
  base64Encode := fun s => s
  addAttachmentRpc := fun _ _ _ => .error (.confluence "io")
  serialize := fun _ => .ok []
  graphemes := fun s => s.map fun c => [c]
  mimeGuess := fun _ => "image/png"

/-- A remote oracle whose child listing is down. -/
def envErr : Env :=
  { envW with getChildren := fun _ => .error (.confluence "down") }

/-- An oracle where the image file opens but cannot be read — the
concrete shape of a directory sitting at the image path. -/
def envPanic : Env :=
  { envW with readFile := fun _ => .error "Is a directory" }

/-- A renderer against a 7.3.0 server with no title prefix and root 42. -/
def irW : InternalRenderer := ⟨⟨7, 3, 0⟩, ⟨none, 42⟩⟩

/-! ## Matching lemmas -/

theorem matchTitle_of_not_mem {t : String} {cs : List PageSummary}
    (h : ∀ c ∈ cs, c.title ≠ t) : matchTitle t cs = (none, cs) := by
  induction cs with
  | nil => rfl
  | cons c rest ih =>
    have hrest := ih fun d hd => h d (List.mem_cons_of_mem c hd)
    have hbeq : (c.title == t) = false :=
      beq_eq_false_iff_ne.mpr (h c (List.mem_cons_self c rest))
    simp [matchTitle, hrest, hbeq]

theorem matchTitle_found {t : String} (u : List PageSummary) {c : PageSummary}
    {v : List PageSummary} (hc : c.title = t) (hv : ∀ d ∈ v, d.title ≠ t) :
    matchTitle t (u ++ c :: v) = (some c.id, u ++ v) := by
  induction u with
  | nil =>
    have hrest := matchTitle_of_not_mem hv
    have hbeq : (c.title == t) = true := beq_iff_eq.mpr hc
    simp [matchTitle, hrest, hbeq]
  | cons x u' ih =>
    simp [matchTitle, ih]

/-- C1: in `render_group`, every local chapter scans the still-unconsumed
remote children in reverse index order (the deepest list positions first)
for its effective title; a match is removed from the list and its id
recorded. Hence with no matching title nothing is consumed, with a match
the *last* (highest-index) occurrence is consumed, and when two remote
children share the chapter's title the higher-index one is matched while
the lower-index one remains and is handed to the deletion pass. -/
theorem render_group_match_reverse_tiebreak :
    (∀ (t : String) (cs : List PageSummary),
        (∀ c ∈ cs, c.title ≠ t) → matchTitle t cs = (none, cs)) ∧
    (∀ (t : String) (u : List PageSummary) (c : PageSummary) (v : List PageSummary),
        c.title = t → (∀ d ∈ v, d.title ≠ t) →
        matchTitle t (u ++ c :: v) = (some c.id, u ++ v)) ∧
    (∀ (env : Env) (a b : PageSummary) (t : String), a.title = t → b.title = t →
        matchTitle t [a, b] = (some b.id, [a]) ∧
        removeCalls (deleteOrphans env [a]) = [a.id]) := by
  refine ⟨fun t cs h => matchTitle_of_not_mem h,
    fun t u c v hc hv => matchTitle_found u hc hv, ?_⟩
  intro env a b t ha hb
  constructor
  · simpa using matchTitle_found (t := t) [a] (c := b) (v := []) hb (by simp)
  · cases hrp : env.removePage a.id <;> simp [deleteOrphans, removeCalls, hrp]

/-- Witness for C1: two remote children titled "T" with ids 1 and 2; the
single local chapter titled "T" consumes id 2, id 1 remains and one
delete call is issued for it. -/
theorem render_group_match_reverse_tiebreak_witness :
    matchTitle "T" [⟨1, "S", "T", "u1"⟩, ⟨2, "S", "T", "u2"⟩] =
      (some 2, [⟨1, "S", "T", "u1"⟩]) ∧
    removeCalls (deleteOrphans envW [⟨1, "S", "T", "u1"⟩]) = [1] :=
  render_group_match_reverse_tiebreak.2.2 envW ⟨1, "S", "T", "u1"⟩ ⟨2, "S", "T", "u2"⟩
    "T" rfl rfl

/-- C2: `to_cdata` escapes the body by replacing every literal `"]]>"`
occurrence with `"]]]]><![CDATA[>"` and wrapping in `<![CDATA[` … `]]>`,
whichever way the capability gate points; the pieces rejoin to the body
(nothing is lost), and the output decomposes into well-formed CDATA
sections none of whose bodies contains a terminator — so no unescaped
terminator precedes any section's intended final one. -/
theorem to_cdata_escapes_terminators (gate : Bool) (gs : List (List Char)) :
    to_cdata gate gs =
      cdataOpen ++
        replaceEachTerminator (if gate then gs.flatten else downgrade gs) ++ cdataClose ∧
    joinSep cdataClose (splitCdata (if gate then gs.flatten else downgrade gs)) =
      (if gate then gs.flatten else downgrade gs) ∧
    ∃ bodies : List (List Char), bodies ≠ [] ∧
      (∀ b ∈ bodies, ¬ cdataClose <:+: b) ∧
      to_cdata gate gs = cdataSections bodies := by
  have hto : to_cdata gate gs =
      cdataOpen ++
        joinSep cdataSep (splitCdata (if gate then gs.flatten else downgrade gs)) ++
        cdataClose := by
    cases gate <;> rfl
  refine ⟨?_, joinSep_splitCdata_close _,
    bodiesOf (splitCdata (if gate then gs.flatten else downgrade gs)),
    bodiesOf_ne_nil (splitCdata_ne_nil _),
    bodiesOf_clean (splitCdata_clean _), ?_⟩
  · rw [hto, joinSep_splitCdata_eq_replace]
  · rw [hto, wrap_eq_cdataSections _ (splitCdata_ne_nil _)]

/-- C3: with the capability gate off, `to_cdata` first downgrades the
body cluster-by-cluster — every grapheme cluster of UTF-8 byte length at
least 4 becomes the single placeholder `'⸮'` — and only then escapes, so
every character of the escaped body fits in 3 UTF-8 bytes; with the gate
on, the body reaches the escaping step unchanged. -/
theorem to_cdata_downgrades_before_escaping (gs : List (List Char)) :
    to_cdata false gs =
      cdataOpen ++ joinSep cdataSep (splitCdata (downgrade gs)) ++ cdataClose ∧
    downgrade gs = (gs.map fun g => if 4 ≤ utf8Len g then [placeholder] else g).flatten ∧
    (∀ c ∈ downgrade gs, c.utf8Size ≤ 3) ∧
    to_cdata true gs =
      cdataOpen ++ joinSep cdataSep (splitCdata gs.flatten) ++ cdataClose := by
  refine ⟨rfl, rfl, ?_, rfl⟩
  intro c hc
  rw [downgrade, List.mem_flatten] at hc
  obtain ⟨l, hl, hcl⟩ := hc
  rw [List.mem_map] at hl
  obtain ⟨g, hg, hfg⟩ := hl
  by_cases h4 : 4 ≤ utf8Len g
  · rw [if_pos h4] at hfg
    rw [← hfg, List.mem_singleton] at hcl
    subst hcl
    decide
  · rw [if_neg h4] at hfg
    subst hfg
    have hmem : c.utf8Size ∈ g.map Char.utf8Size := List.mem_map_of_mem _ hcl
    have hle := List.single_le_sum (fun x _ => Nat.zero_le x) _ hmem
    have : utf8Len g < 4 := Nat.not_le.mp h4
    rw [utf8Len] at this
    omega

/-- C8: `supports_emoji` is true exactly when the parsed server version
is at least 7.3.0 in the lexicographic (major, minor, patch) order, and a
version-parse failure in `get_server_version` propagates out of session
construction as a fatal error. -/
theorem supports_emoji_iff_730 :
    (∀ v : SemVer, supports_emoji v = true ↔
        (7 < v.major ∨ (v.major = 7 ∧ 3 ≤ v.minor))) ∧
    (∀ (versionCall : Except Err (Int × Int)) (e : Err),
        get_server_version versionCall = .error e →
        rendererNew (.ok ()) versionCall = .error e) ∧
    (∀ ma mi : Int, ma < 0 ∨ mi < 0 →
        get_server_version (.ok (ma, mi)) =
          .error (.error "Failed to parse Confluence Version")) ∧
    (∀ ma mi : Int, 0 ≤ ma → 0 ≤ mi →
        get_server_version (.ok (ma, mi)) = .ok ⟨ma.toNat, mi.toNat, 0⟩) := by
  refine ⟨?_, ?_, ?_, ?_⟩
  · intro v
    simp only [supports_emoji, semverLe, Bool.or_eq_true, Bool.and_eq_true,
      Nat.blt_eq, Nat.ble_eq, beq_iff_eq]
    omega
  · intro versionCall e h
    simpa [rendererNew] using h
  · intro ma mi h
    have hdef : get_server_version (.ok (ma, mi)) =
        if ma < 0 ∨ mi < 0 then .error (.error "Failed to parse Confluence Version")
        else .ok ⟨ma.toNat, mi.toNat, 0⟩ := rfl
    rw [hdef, if_pos h]
  · intro ma mi hma hmi
    have hdef : get_server_version (.ok (ma, mi)) =
        if ma < 0 ∨ mi < 0 then .error (.error "Failed to parse Confluence Version")
        else .ok ⟨ma.toNat, mi.toNat, 0⟩ := rfl
    rw [hdef, if_neg (by omega)]

/-- Witness for C8: a negative reported major version is a fatal
session-start error, and version 7.3.0 itself enables extended text
while 7.2.9 does not. -/
theorem supports_emoji_iff_730_witness :
    rendererNew (.ok ()) (.ok (-1, 0)) =
      .error (.error "Failed to parse Confluence Version") ∧
    supports_emoji ⟨7, 3, 0⟩ = true ∧ ¬ supports_emoji ⟨7, 2, 9⟩ = true :=
  ⟨supports_emoji_iff_730.2.1 _ _ (supports_emoji_iff_730.2.2.1 (-1) 0 (by decide)),
   (supports_emoji_iff_730.1 ⟨7, 3, 0⟩).mpr (by decide),
   fun h => by
     rcases (supports_emoji_iff_730.1 ⟨7, 2, 9⟩).mp h with h' | ⟨_, h'⟩ <;> simp at h'⟩

/-- The pure matching pass on its own: the remote children left
unconsumed after every chapter item has run its reverse scan. Render
outcomes cannot influence it — `renderSiblings_remaining` below proves
the running synchronizer leaves exactly this orphan set. -/
def consumeMatches (cfg : Config) : List BookItem → List PageSummary → List PageSummary
  | [], children => children
  | .chapter c :: rest, children =>
    consumeMatches cfg rest (matchTitle (chapter_title cfg c) children).2
  | .separator :: rest, children => consumeMatches cfg rest children
  | .partTitle _ :: rest, children => consumeMatches cfg rest children

/-- C10: only chapters participate in a level's synchronization —
filtering out separators and part titles changes nothing: not the
per-chapter results (no render is launched for a non-chapter), not the
event trace, and not the remaining (orphan) children. -/
theorem nonchapter_items_inert :
    ∀ (env : Env) (ir : InternalRenderer) (items : List BookItem)
      (children : List PageSummary) (parentPage : ParentPage) (rootPath : List String),
      renderSiblings env ir (items.filter isChapterItem) children parentPage rootPath =
        renderSiblings env ir items children parentPage rootPath := by
  intro env ir items
  induction items with
  | nil => intro children pp rp; rfl
  | cons i rest ih =>
    intro children pp rp
    cases i with
    | chapter c =>
      rw [List.filter_cons_of_pos (by rfl)]
      rw [renderSiblings, renderSiblings]
      rw [ih]
    | separator =>
      rw [List.filter_cons_of_neg (by simp [isChapterItem])]
      rw [ih]
      rw [renderSiblings]
    | partTitle t =>
      rw [List.filter_cons_of_neg (by simp [isChapterItem])]
      rw [ih]
      rw [renderSiblings]

theorem renderSiblings_results_length (env : Env) (ir : InternalRenderer) :
    ∀ (items : List BookItem) (children : List PageSummary) (pp : ParentPage)
      (rp : List String),
    (renderSiblings env ir items children pp rp).1.length =
      (chapterItems items).length := by
  intro items
  induction items with
  | nil => intro children pp rp; rw [renderSiblings]; rfl
  | cons i rest ih =>
    intro children pp rp
    cases i with
    | chapter c => rw [renderSiblings]; simp [chapterItems, ih]
    | separator => rw [renderSiblings]; simp [chapterItems, ih]
    | partTitle t => rw [renderSiblings]; simp [chapterItems, ih]

theorem renderSiblings_remaining (env : Env) (ir : InternalRenderer) :
    ∀ (items : List BookItem) (children : List PageSummary) (pp : ParentPage)
      (rp : List String),
    (renderSiblings env ir items children pp rp).2.2 =
      consumeMatches ir.config items children := by
  intro items
  induction items with
  | nil => intro children pp rp; rw [renderSiblings, consumeMatches]
  | cons i rest ih =>
    intro children pp rp
    cases i with
    | chapter c => rw [renderSiblings, consumeMatches]; exact ih _ _ _
    | separator => rw [renderSiblings, consumeMatches]; exact ih _ _ _
    | partTitle t => rw [renderSiblings, consumeMatches]; exact ih _ _ _

theorem render_group_listing_error {env : Env} {ir : InternalRenderer}
    {items : List BookItem} {pp : ParentPage} {rp : List String} {e : Err}
    (h : env.getChildren pp.id = .error e) :
    render_group env ir items pp rp = (.error e, [Event.getChildrenCall pp.id]) := by
  rw [render_group.eq_def, h]

theorem render_group_listing_ok {env : Env} {ir : InternalRenderer}
    {items : List BookItem} {pp : ParentPage} {rp : List String}
    {children : List PageSummary} (h : env.getChildren pp.id = .ok children) :
    render_group env ir items pp rp =
      (.ok (), Event.getChildrenCall pp.id ::
        ((renderSiblings env ir items children pp rp).2.1 ++
         (renderSiblings env ir items children pp rp).1.map resultLog ++
         deleteOrphans env (renderSiblings env ir items children pp rp).2.2)) := by
  rw [render_group.eq_def, h]

/-- C4: `render_group` fails exactly when its initial child listing
fails (and with that very error); when the listing succeeds the call
returns success, one result — logged, success or failure alike — is
produced per chapter sibling, and the deletion pass still follows. -/
theorem render_group_error_iff_listing (env : Env) (ir : InternalRenderer)
    (items : List BookItem) (parentPage : ParentPage) (rootPath : List String) :
    (render_group env ir items parentPage rootPath).1 =
      (env.getChildren parentPage.id).map (fun _ => ()) ∧
    (∀ e, env.getChildren parentPage.id = .error e →
        render_group env ir items parentPage rootPath =
          (.error e, [Event.getChildrenCall parentPage.id])) ∧
    (∀ children, env.getChildren parentPage.id = .ok children →
        (renderSiblings env ir items children parentPage rootPath).1.length =
          (chapterItems items).length ∧
        render_group env ir items parentPage rootPath =
          (.ok (), Event.getChildrenCall parentPage.id ::
            ((renderSiblings env ir items children parentPage rootPath).2.1 ++
             (renderSiblings env ir items children parentPage rootPath).1.map resultLog ++
             deleteOrphans env
               (renderSiblings env ir items children parentPage rootPath).2.2))) := by
  refine ⟨?_, fun e h => render_group_listing_error h, fun children h =>
    ⟨renderSiblings_results_length env ir items children parentPage rootPath,
     render_group_listing_ok h⟩⟩
  cases h : env.getChildren parentPage.id with
  | error e => rw [render_group_listing_error h]; rfl
  | ok children => rw [render_group_listing_ok h]; rfl

/-- Witness for C4: against a downed listing the level fails with that
error and nothing else happens; against a healthy one it succeeds. -/
theorem render_group_error_iff_listing_witness :
    render_group envErr irW [] ⟨42, "S"⟩ [] =
      (.error (.confluence "down"), [Event.getChildrenCall 42]) ∧
    (render_group envW irW [] ⟨42, "S"⟩ []).1 = .ok () := by
  constructor
  · exact (render_group_error_iff_listing envErr irW [] ⟨42, "S"⟩ []).2.1 _ rfl
  · rw [(render_group_error_iff_listing envW irW [] ⟨42, "S"⟩ []).1]; rfl

theorem removeCalls_deleteOrphans (env : Env) :
    ∀ orphans : List PageSummary,
    removeCalls (deleteOrphans env orphans) = orphans.map (·.id) := by
  intro orphans
  induction orphans with
  | nil => rfl
  | cons c rest ih =>
    cases h : env.removePage c.id <;> simp [deleteOrphans, removeCalls, h, ih]

/-- C6: the orphan set of a level is exactly the remote children no
chapter's matching consumed; the deletion pass issues exactly one
`removePage` call per orphan, in order, whatever each call returns — a
failed deletion never prevents the remaining attempts. -/
theorem orphans_deleted_exactly_once (env : Env) :
    (∀ orphans : List PageSummary,
        removeCalls (deleteOrphans env orphans) = orphans.map (·.id)) ∧
    (∀ (ir : InternalRenderer) (items : List BookItem) (children : List PageSummary)
        (parentPage : ParentPage) (rootPath : List String),
        (renderSiblings env ir items children parentPage rootPath).2.2 =
          consumeMatches ir.config items children) ∧
    (∀ (ir : InternalRenderer) (items : List BookItem) (parentPage : ParentPage)
        (rootPath : List String) (children : List PageSummary),
        env.getChildren parentPage.id = .ok children →
        ∃ evs : List Event,
          (render_group env ir items parentPage rootPath).2 =
            evs ++ deleteOrphans env (consumeMatches ir.config items children) ∧
          removeCalls (deleteOrphans env (consumeMatches ir.config items children)) =
            (consumeMatches ir.config items children).map (·.id)) := by
  refine ⟨removeCalls_deleteOrphans env,
    fun ir items children pp rp => renderSiblings_remaining env ir items children pp rp, ?_⟩
  intro ir items pp rp children h
  refine ⟨Event.getChildrenCall pp.id ::
    ((renderSiblings env ir items children pp rp).2.1 ++
     (renderSiblings env ir items children pp rp).1.map resultLog),
    ?_, removeCalls_deleteOrphans env _⟩
  rw [render_group_listing_ok h, renderSiblings_remaining]
  simp

/-- Witness for C6: with a healthy listing of no children, the level's
trace ends in the (empty) deletion pass over the (empty) orphan set. -/
theorem orphans_deleted_exactly_once_witness :
    ∃ evs : List Event,
      (render_group envW irW [] ⟨42, "S"⟩ []).2 =
        evs ++ deleteOrphans envW (consumeMatches irW.config [] []) ∧
      removeCalls (deleteOrphans envW (consumeMatches irW.config [] [])) =
        (consumeMatches irW.config [] []).map (·.id) :=
  (orphans_deleted_exactly_once envW).2.2 irW [] ⟨42, "S"⟩ [] [] rfl

/-! ## The scheme-link regex and the upload contract -/

theorem schemeTail_iff (l : List Char) :
    schemeTail l = true ↔
      ∃ run tail : List Char, l = run ++ ':' :: tail ∧
        ∀ x ∈ run, isSchemeChar x = true := by
  induction l with
  | nil =>
    constructor
    · intro h; exact absurd h (by simp [schemeTail])
    · rintro ⟨run, tail, hl, _⟩
      cases run <;> simp at hl
  | cons c rest ih =>
    by_cases hc : c = ':'
    · subst hc
      constructor
      · intro _; exact ⟨[], rest, rfl, by simp⟩
      · intro _; simp [schemeTail]
    · by_cases hsc : isSchemeChar c = true
      · have hstep : schemeTail (c :: rest) = schemeTail rest := by
          simp [schemeTail, hc, hsc]
        rw [hstep, ih]
        constructor
        · rintro ⟨run, tail, hrest, hrun⟩
          refine ⟨c :: run, tail, by rw [hrest]; rfl, ?_⟩
          intro x hx
          rcases List.mem_cons.mp hx with h | h
          · subst h; exact hsc
          · exact hrun x h
        · rintro ⟨run, tail, hl, hrun⟩
          cases run with
          | nil =>
            simp only [List.nil_append, List.cons.injEq] at hl
            exact absurd hl.1 hc
          | cons r run' =>
            simp only [List.cons_append, List.cons.injEq] at hl
            exact ⟨run', tail, hl.2, fun x hx => hrun x (List.mem_cons_of_mem r hx)⟩
      · have hstep : schemeTail (c :: rest) = false := by
          simp [schemeTail, hc]
          simp at hsc
          simp [hsc]
        rw [hstep]
        constructor
        · intro h; exact absurd h (by simp)
        · rintro ⟨run, tail, hl, hrun⟩
          cases run with
          | nil =>
            simp only [List.nil_append, List.cons.injEq] at hl
            exact absurd hl.1 hc
          | cons r run' =>
            simp only [List.cons_append, List.cons.injEq] at hl
            exact absurd (hl.1 ▸ hrun r (by simp)) hsc

/-- The scheme test agrees with the regex `^[a-z][a-z0-9+.-]*:`: a
lowercase letter, a run of class characters, then a colon, anchored at
the start. -/
theorem isSchemeLink_iff_regex (url : String) :
    isSchemeLink url = true ↔
      ∃ (c : Char) (run tail : List Char),
        url.toList = c :: (run ++ ':' :: tail) ∧ ('a' ≤ c ∧ c ≤ 'z') ∧
        ∀ x ∈ run, isSchemeChar x = true := by
  cases hu : url.toList with
  | nil =>
    have hfalse : isSchemeLink url = false := by rw [isSchemeLink, hu]
    rw [hfalse]
    simp
  | cons c rest =>
    have hdef : isSchemeLink url = (('a' ≤ c && c ≤ 'z') && schemeTail rest) := by
      rw [isSchemeLink, hu]
    rw [hdef]
    constructor
    · intro hh
      simp only [Bool.and_eq_true, decide_eq_true_eq] at hh
      obtain ⟨⟨h1, h2⟩, h3⟩ := hh
      obtain ⟨run, tail, hr, hrun⟩ := (schemeTail_iff rest).mp h3
      exact ⟨c, run, tail, by rw [hr], ⟨h1, h2⟩, hrun⟩
    · rintro ⟨c', run, tail, hl, ⟨h1, h2⟩, hrun⟩
      injection hl with hcc hrest
      subst hcc
      simp only [Bool.and_eq_true, decide_eq_true_eq]
      exact ⟨⟨h1, h2⟩, (schemeTail_iff rest).mpr ⟨run, tail, hrest, hrun⟩⟩

/-- A non-scheme link whose file opens and then fails to read makes the
upload PANIC with the `.expect` message of client.rs:118; the only
events performed are the attempt log and the call — no error log, no
`none`. -/
theorem upload_imageF_read_failure (env : Env) (title url : String)
    (rootPath : List String) (pageId : Int) (ioe : String)
    (h1 : isSchemeLink url = false)
    (h2 : env.openFile (rootPath ++ [url]) = .ok ())
    (h3 : env.readFile (rootPath ++ [url]) = .error ioe) :
    upload_imageF env title url rootPath pageId =
      (.panicked panicMessage,
       [Event.logInfo ("Attempting to upload file: " ++ url),
        Event.addFileCall pageId (uploadRequest env title url rootPath)
          (rootPath ++ [url])]) := by
  simp [upload_imageF, h1, add_file, h2, add_attachment, h3]

/-- On an oracle where no upload panics — `add_file` always lands in the
`.ok` of the abstraction field — the faithful upload coincides with the
`upload_image` the pipeline is stated over, result and events alike. -/
theorem upload_imageF_agrees_when_no_panic (env : Env)
    (h : ∀ (pid : Int) (req : AttachmentRequest) (path : List String),
        add_file env pid req path = .ok (env.addFile pid req path)) :
    ∀ (title url : String) (rootPath : List String) (pageId : Int),
      upload_imageF env title url rootPath pageId =
        (.ok (upload_image env title url rootPath pageId).1,
         (upload_image env title url rootPath pageId).2) := by
  intro title url rootPath pageId
  by_cases hs : isSchemeLink url = true
  · simp [upload_imageF, upload_image, hs]
  · have hs' : isSchemeLink url = false := by simpa using hs
    cases ha : env.addFile pageId (uploadRequest env title url rootPath)
        (rootPath ++ [url]) with
    | error e => simp [upload_imageF, upload_image, hs', h, ha]
    | ok a => cases hu : a.url <;> simp [upload_imageF, upload_image, hs', h, ha, hu]

/-- When the upload yields no rewrite, the image event passes through the
rewriting loop unmodified. -/
theorem image_event_unmodified_on_none (env : Env) (title url : String)
    (lt : Nat) (rest : List CmEvent) (chapterPath : List String) (pid : Int)
    (h : (upload_image env title url chapterPath pid).1 = none) :
    ∃ (restOut : List CmEvent) (evs : List Event),
      imageLoop env chapterPath pid
          (CmEvent.start (CmTag.image lt url title) :: rest) none =
        (CmEvent.start (CmTag.image lt url title) :: restOut, evs) := by
  refine ⟨(imageLoop env chapterPath pid rest none).1,
    (upload_image env title url chapterPath pid).2 ++
      (imageLoop env chapterPath pid rest none).2, ?_⟩
  rw [imageLoop, h]

/-- C7: the claim says the upload never raises to its caller and maps
every failure — including a broken or missing local image file — to
`none`. Scheme links are indeed skipped untouched, and a session-reported
error is indeed absorbed to `none` (first two conjuncts). But a local
file that opens and then fails to read — concretely, the non-scheme link
"img.png" over an oracle whose file opens while reading returns an I/O
error, the shape of a directory at that path — makes the upload PANIC
with the `.expect` message of client.rs:118 and emit no error log: the
third conjunct evaluates the code there to `.panicked panicMessage`, not
`.ok none`, so the failure is neither caught, nor logged, nor mapped to
`none`. -/
theorem upload_image_panics_on_read_failure :
    upload_imageF envW "t" "https://x" [] 1 = (.ok none, []) ∧
    (upload_imageF envW "t" "img.png" [] 1).1 = .ok none ∧
    upload_imageF envPanic "t" "img.png" [] 1 =
      (.panicked panicMessage,
       [Event.logInfo "Attempting to upload file: img.png",
        Event.addFileCall 1 (uploadRequest envPanic "t" "img.png" []) ["img.png"]]) :=
  ⟨rfl, rfl, rfl⟩

/-! ## No child listing happens before a page's own store

The first action of any level's synchronization is its `getChildren`
call, so "this chapter's sub-items were never synchronized" is visible in
a trace as the absence of any `getChildrenCall` event. -/

theorem upload_image_no_listing (env : Env) (title url : String)
    (rootPath : List String) (pageId : Int) :
    ∀ ev ∈ (upload_image env title url rootPath pageId).2, isGetChildren ev = false := by
  by_cases h : isSchemeLink url = true
  · simp [upload_image, h]
  · have h' : isSchemeLink url = false := by simpa using h
    cases ha : env.addFile pageId (uploadRequest env title url rootPath)
        (rootPath ++ [url]) with
    | error e => simp [upload_image, h', ha, isGetChildren]
    | ok a => cases hu : a.url <;> simp [upload_image, h', ha, hu, isGetChildren]

theorem imageLoop_no_listing (env : Env) (chapterPath : List String) (pageId : Int) :
    ∀ (evts : List CmEvent) (lastImage : Option CmTag),
    ∀ ev ∈ (imageLoop env chapterPath pageId evts lastImage).2,
      isGetChildren ev = false := by
  intro evts
  induction evts with
  | nil => intro lastImage ev hev; simp [imageLoop] at hev
  | cons e rest ih =>
    intro lastImage ev hev
    cases e with
    | start tag =>
      cases tag with
      | image lt url title =>
        cases lastImage with
        | none =>
          rw [imageLoop] at hev
          cases hup : (upload_image env title url chapterPath pageId).1 with
          | some u =>
            rw [hup] at hev
            simp only [List.mem_append] at hev
            rcases hev with h | h
            · exact upload_image_no_listing env title url chapterPath pageId ev h
            · exact ih _ ev h
          | none =>
            rw [hup] at hev
            simp only [List.mem_append] at hev
            rcases hev with h | h
            · exact upload_image_no_listing env title url chapterPath pageId ev h
            · exact ih _ ev h
        | some t =>
          rw [imageLoop] at hev
          · exact ih _ ev hev
          all_goals (intros _ _ heq hopt; simp_all)
      | other s =>
        rw [imageLoop] at hev
        · exact ih _ ev hev
        all_goals (intros _ _ heq hopt; simp_all)
    | stop tag =>
      cases tag with
      | image lt url title =>
        cases lastImage with
        | none =>
          rw [imageLoop] at hev
          · exact ih _ ev hev
          all_goals (intros _ _ heq hopt; simp_all)
        | some t =>
          rw [imageLoop] at hev
          exact ih _ ev hev
      | other s =>
        rw [imageLoop] at hev
        · exact ih _ ev hev
        all_goals (intros _ _ heq hopt; simp_all)
    | other s =>
      rw [imageLoop] at hev
      · exact ih _ ev hev
      all_goals (intros _ _ heq hopt; simp_all)

theorem get_existing_page_no_listing (env : Env) (ir : InternalRenderer)
    (chapter : Chapter) (existingPageId : Option Int) (parent : ParentPage) :
    ∀ ev ∈ (get_existing_page env ir chapter existingPageId parent).2,
      isGetChildren ev = false := by
  cases existingPageId <;> simp [get_existing_page, isGetChildren]

theorem create_page_content_trace (env : Env) (ir : InternalRenderer)
    (chapter : Chapter) (pg : Page) (parent : ParentPage) (rootPath : List String) :
    (create_page_content env ir chapter pg parent rootPath).2 =
      (imageLoop env (rootPath ++ chapter.path.dropLast) pg.id chapter.events none).2 := by
  cases hs : env.serialize
      (imageLoop env (rootPath ++ chapter.path.dropLast) pg.id chapter.events none).1 <;>
    simp [create_page_content, hs]

theorem create_page_content_no_listing (env : Env) (ir : InternalRenderer)
    (chapter : Chapter) (pg : Page) (parent : ParentPage) (rootPath : List String) :
    ∀ ev ∈ (create_page_content env ir chapter pg parent rootPath).2,
      isGetChildren ev = false := by
  intro ev hev
  rw [create_page_content_trace] at hev
  exact imageLoop_no_listing env _ pg.id chapter.events none ev hev

/-! ## The `render_page` pipeline equations -/

theorem render_page_stub_error {env : Env} {ir : InternalRenderer} {chapter : Chapter}
    {parent : ParentPage} {existingPageId : Option Int} {rootPath : List String}
    {e : Err} {evs1 : List Event}
    (h : get_existing_page env ir chapter existingPageId parent = (.error e, evs1)) :
    render_page env ir chapter parent existingPageId rootPath = (.error e, evs1) := by
  simp only [render_page.eq_def, h]

theorem render_page_transform_error {env : Env} {ir : InternalRenderer}
    {chapter : Chapter} {parent : ParentPage} {existingPageId : Option Int}
    {rootPath : List String} {pg : Page} {evs1 : List Event} {e : Err} {evs2 : List Event}
    (h1 : get_existing_page env ir chapter existingPageId parent = (.ok pg, evs1))
    (h2 : create_page_content env ir chapter pg parent rootPath = (.error e, evs2)) :
    render_page env ir chapter parent existingPageId rootPath = (.error e, evs1 ++ evs2) := by
  simp only [render_page.eq_def, h1, h2]

theorem render_page_store_error {env : Env} {ir : InternalRenderer} {chapter : Chapter}
    {parent : ParentPage} {existingPageId : Option Int} {rootPath : List String}
    {pg : Page} {evs1 : List Event} {payload : UpdatePage} {evs2 : List Event} {e : Err}
    (h1 : get_existing_page env ir chapter existingPageId parent = (.ok pg, evs1))
    (h2 : create_page_content env ir chapter pg parent rootPath = (.ok payload, evs2))
    (h3 : env.storePage payload = .error e) :
    render_page env ir chapter parent existingPageId rootPath =
      (.error e, evs1 ++ evs2 ++ [Event.storePageCall payload]) := by
  simp only [render_page.eq_def, h1, h2, h3]

theorem render_page_store_ok {env : Env} {ir : InternalRenderer} {chapter : Chapter}
    {parent : ParentPage} {existingPageId : Option Int} {rootPath : List String}
    {pg : Page} {evs1 : List Event} {payload : UpdatePage} {evs2 : List Event}
    {newPage : Page}
    (h1 : get_existing_page env ir chapter existingPageId parent = (.ok pg, evs1))
    (h2 : create_page_content env ir chapter pg parent rootPath = (.ok payload, evs2))
    (h3 : env.storePage payload = .ok newPage) :
    (render_page env ir chapter parent existingPageId rootPath).2 =
      evs1 ++ evs2 ++ [Event.storePageCall payload] ++
        (render_group env ir chapter.subItems (ParentPage.fromPage newPage) rootPath).2 := by
  simp only [render_page.eq_def, h1, h2, h3]
  rcases hr : render_group env ir chapter.subItems (ParentPage.fromPage newPage) rootPath
    with ⟨r, evs3⟩
  cases r <;> rfl

/-- C5: a chapter's sub-items are synchronized only after its own page
store succeeded, under the stored page as parent. Stub, transform and
store failures each end the page's pipeline with a trace that contains
no `getChildrenCall` — no subtree synchronization ever starts — while on
success the whole sub-level trace follows the store call. -/
theorem render_page_parent_before_children (env : Env) (ir : InternalRenderer)
    (chapter : Chapter) (parent : ParentPage) (existingPageId : Option Int)
    (rootPath : List String) :
    (∀ e evs1, get_existing_page env ir chapter existingPageId parent = (.error e, evs1) →
        render_page env ir chapter parent existingPageId rootPath = (.error e, evs1)) ∧
    (∀ pg evs1 e evs2,
        get_existing_page env ir chapter existingPageId parent = (.ok pg, evs1) →
        create_page_content env ir chapter pg parent rootPath = (.error e, evs2) →
        render_page env ir chapter parent existingPageId rootPath =
          (.error e, evs1 ++ evs2)) ∧
    (∀ pg evs1 payload evs2 e,
        get_existing_page env ir chapter existingPageId parent = (.ok pg, evs1) →
        create_page_content env ir chapter pg parent rootPath = (.ok payload, evs2) →
        env.storePage payload = .error e →
        render_page env ir chapter parent existingPageId rootPath =
          (.error e, evs1 ++ evs2 ++ [Event.storePageCall payload])) ∧
    (∀ pg evs1 payload evs2 newPage,
        get_existing_page env ir chapter existingPageId parent = (.ok pg, evs1) →
        create_page_content env ir chapter pg parent rootPath = (.ok payload, evs2) →
        env.storePage payload = .ok newPage →
        (render_page env ir chapter parent existingPageId rootPath).2 =
          evs1 ++ evs2 ++ [Event.storePageCall payload] ++
            (render_group env ir chapter.subItems (ParentPage.fromPage newPage)
              rootPath).2) ∧
    (∀ ev ∈ (get_existing_page env ir chapter existingPageId parent).2,
        isGetChildren ev = false) ∧
    (∀ pg, ∀ ev ∈ (create_page_content env ir chapter pg parent rootPath).2,
        isGetChildren ev = false) :=
  ⟨fun _ _ h => render_page_stub_error h,
   fun _ _ _ _ h1 h2 => render_page_transform_error h1 h2,
   fun _ _ _ _ _ h1 h2 h3 => render_page_store_error h1 h2 h3,
   fun _ _ _ _ _ h1 h2 h3 => render_page_store_ok h1 h2 h3,
   get_existing_page_no_listing env ir chapter existingPageId parent,
   fun pg => create_page_content_no_listing env ir chapter pg parent rootPath⟩

/-! ## Concrete pages for the pipeline witnesses -/

/-- A chapter named "A" with no content and no sub-items. -/
def chapW : Chapter := .mk "A" [] [] []

/-- The stub payload `render_page` creates for `chapW` under page 42. -/
def stubW : UpdatePage :=
  { id := none, space := "S", title := "A", content := [], version := none,
    parentId := some 42 }

/-- What `envW` answers to storing `stubW`. -/
def pageW1 : Page :=
  { id := 100, space := "S", title := "A", content := [], version := 1, url := "u" }

/-- The content payload built from `chapW` and the stub `pageW1`. -/
def payloadW : UpdatePage :=
  { id := some 100, space := "S", title := "A",
    content := to_page_content envW irW.serverVersion [], version := some 1,
    parentId := some 42 }

/-- What `envW` answers to storing `payloadW`. -/
def pageW2 : Page :=
  { id := 100, space := "S", title := "A",
    content := to_page_content envW irW.serverVersion [], version := 2, url := "u" }

/-- Witness for C5: a fully successful pipeline run on `chapW` — the
sub-level's events come after the store of the content payload, under
the freshly stored page. -/
theorem render_page_parent_before_children_witness :
    (render_page envW irW chapW ⟨42, "S"⟩ none []).2 =
      [Event.storePageCall stubW] ++ [] ++ [Event.storePageCall payloadW] ++
        (render_group envW irW chapW.subItems (ParentPage.fromPage pageW2) []).2 :=
  (render_page_parent_before_children envW irW chapW ⟨42, "S"⟩ none []).2.2.2.1
    pageW1 [Event.storePageCall stubW] payloadW [] pageW2 rfl rfl rfl

/-- C9: with no matched id the stub is created by a store with empty
content, the chapter's effective title and the parent's id and space;
with a matched id the full page is fetched instead; and the content
store's payload carries exactly the id and version of that just-obtained
stub — the store call follows immediately, with no further fetch in
between. -/
theorem page_stub_and_store_payload (env : Env) (ir : InternalRenderer)
    (chapter : Chapter) (parent : ParentPage) (rootPath : List String) :
    get_existing_page env ir chapter none parent =
      (env.storePage
        { id := none, space := parent.space, title := chapter_title ir.config chapter,
          content := [], version := none, parentId := some parent.id },
       [Event.storePageCall
        { id := none, space := parent.space, title := chapter_title ir.config chapter,
          content := [], version := none, parentId := some parent.id }]) ∧
    (∀ pid : Int, get_existing_page env ir chapter (some pid) parent =
        (env.getPageById pid, [Event.getPageCall pid])) ∧
    (∀ pg payload evs,
        create_page_content env ir chapter pg parent rootPath = (.ok payload, evs) →
        payload.id = some pg.id ∧ payload.version = some pg.version ∧
        payload.space = parent.space ∧
        payload.title = chapter_title ir.config chapter ∧
        payload.parentId = some parent.id) ∧
    (∀ existingPageId pg evs1 payload evs2,
        get_existing_page env ir chapter existingPageId parent = (.ok pg, evs1) →
        create_page_content env ir chapter pg parent rootPath = (.ok payload, evs2) →
        ∃ tail, (render_page env ir chapter parent existingPageId rootPath).2 =
          evs1 ++ evs2 ++ Event.storePageCall payload :: tail) := by
  refine ⟨rfl, fun pid => rfl, ?_, ?_⟩
  · intro pg payload evs h
    simp only [create_page_content] at h
    split at h
    · exact absurd h (by simp)
    · injection h with h' hevs
      injection h' with hpayload
      subst hpayload
      exact ⟨rfl, rfl, rfl, rfl, rfl⟩
  · intro existingPageId pg evs1 payload evs2 h1 h2
    cases h3 : env.storePage payload with
    | error e =>
      refine ⟨[], ?_⟩
      rw [render_page_store_error h1 h2 h3]
    | ok newPage =>
      refine ⟨(render_group env ir chapter.subItems (ParentPage.fromPage newPage)
        rootPath).2, ?_⟩
      rw [render_page_store_ok h1 h2 h3]
      simp

/-- Witness for C9: on `chapW`, the stored payload carries the id and version of the freshly created stub, and the store call follows the stub
and transform events. -/
theorem page_stub_and_store_payload_witness :
    ∃ tail, (render_page envW irW chapW ⟨42, "S"⟩ none []).2 =
      [Event.storePageCall stubW] ++ [] ++ Event.storePageCall payloadW :: tail :=
  (page_stub_and_store_payload envW irW chapW ⟨42, "S"⟩ []).2.2.2 none pageW1
    [Event.storePageCall stubW] payloadW [] rfl rfl

/-- Witness for C2: the escaping equation at a concrete body `"a]]>b"`
(split into single-character clusters) with the gate on. -/
theorem to_cdata_escapes_terminators_witness :
    to_cdata true [['a'], [']'], [']'], ['>'], ['b']] =
      cdataOpen ++
        replaceEachTerminator ([['a'], [']'], [']'], ['>'], ['b']].flatten) ++
        cdataClose :=
  (to_cdata_escapes_terminators true [['a'], [']'], [']'], ['>'], ['b']]).1

/-- Witness for C3: after downgrading a 4-byte emoji cluster, every
character of the body fits in 3 UTF-8 bytes. -/
theorem to_cdata_downgrades_before_escaping_witness :
    ∀ c ∈ downgrade [['👍']], c.utf8Size ≤ 3 :=
  (to_cdata_downgrades_before_escaping [['👍']]).2.2.1

/-- Witness for C10: a lone separator leaves the sibling pass exactly as
if it were absent. -/
theorem nonchapter_items_inert_witness :
    renderSiblings envW irW ([BookItem.separator].filter isChapterItem) [] ⟨42, "S"⟩ [] =
      renderSiblings envW irW [BookItem.separator] [] ⟨42, "S"⟩ [] :=
  nonchapter_items_inert envW irW [BookItem.separator] [] ⟨42, "S"⟩ []

end MdbookConfluence
